import Mathlib

/-!
# Verification of `scrapers.py` (LLM-H-Simulation)

A shallow embedding of the social-media scraper module `scrapers.py`.
The module defines a `Post` record, six collection adapters
(`collect_from_x`, `collect_from_telegram`, `collect_from_youtube`,
`collect_from_tiktok`, `collect_from_xiaohongshu`, `collect_from_bilibili`)
that each turn a platform response into a mapping `{user_id: [posts]}`,
and `merge_results`, which merges several such mappings.

Python dynamic values are embedded as the inductive type `Value`; Python
dicts are embedded as insertion-ordered association lists, which is the
observable behaviour of `dict` (insertion order is preserved, keys are
unique).  API clients are embedded as functions from the request
parameters to the response they would return; each adapter additionally
reports how many API calls it performed, so that "performs no network
call" is a statement about the embedding.

The guard fragments at module level of the source file (lines 27-56:
the `if api_client is None` / `try: from telethon import events` blocks,
each naming the adapter it belongs to in its diagnostic message) are
embedded at the top of the corresponding adapter, which is where their
diagnostics place them.  Likewise `Post` is embedded as a record with
the four declared fields, per its `@dataclass`-style keyword
construction at every call site.
-/

set_option autoImplicit false

namespace Scrapers

/-- Embedding of the Python runtime values this module stores in posts:
`None`, strings, integers, booleans, and the lists of strings produced
by the hashtag comprehension. -/
inductive Value where
  | null
  | str (s : String)
  | int (n : Int)
  | bool (b : Bool)
  | strlist (ss : List String)
deriving DecidableEq

/-- Python's `str()` builtin, on the value shapes this module feeds it
(identifiers arriving as strings or integers; scalars otherwise). -/
def pyStr : Value → String
  | Value.null => "None"
  | Value.str s => s
  | Value.int n => toString n
  | Value.bool b => if b then "True" else "False"
  | Value.strlist ss => toString ss

/-- Embedding of `class Post` (source lines 58-64): a generic social media post with
fields `post_id`, `user_id`, `content`, `metadata`.  The annotations
declare `post_id`/`user_id` as `str`, but Python does not enforce
annotations, so the embedded fields hold arbitrary runtime values;
`metadata` is a string-keyed dict. -/
structure Post where
  post_id : Value
  user_id : Value
  content : Value
  metadata : List (String × Value)
deriving DecidableEq

/-- A value of the dictionary returned by `Post.to_dict`: either one of
the post's scalar fields, or the nested `metadata` dict. -/
inductive DictVal where
  | val (v : Value)
  | dict (kvs : List (String × Value))
deriving DecidableEq

/-- Embedding of `Post.to_dict` (source lines 66-73): the plain dictionary with the
four keys in declaration order. -/
def Post.to_dict (p : Post) : List (String × DictVal) :=
  [("post_id", DictVal.val p.post_id),
   ("user_id", DictVal.val p.user_id),
   ("content", DictVal.val p.content),
   ("metadata", DictVal.dict p.metadata)]

/-- A `{user_id: [posts]}` mapping, embedded as an insertion-ordered
association list (the observable behaviour of a Python dict). -/
abbrev Grouping : Type := List (Value × List Post)

/-- Embedding of `results.setdefault(k, []).extend(ps)` on an insertion-ordered dict:
extend the list at the first entry with key `k`, or append a fresh entry
at the end if no entry has key `k`.  `append`ing a single post is the
special case `ps = [p]`. -/
def appendAt : Grouping → Value → List Post → Grouping
  | [], k, ps => [(k, ps)]
  | (k', v) :: rest, k, ps =>
      if k' = k then (k', v ++ ps) :: rest else (k', v) :: appendAt rest k ps

/-- All posts stored in a grouping, in key-grouped order. -/
def posts (g : Grouping) : List Post :=
  (g.map (fun kl => kl.2)).flatten

/-- Total number of posts stored in a grouping. -/
def totalPosts (g : Grouping) : Nat :=
  (g.map (fun kl => kl.2.length)).sum

/-- The keys of a grouping, in insertion order. -/
def keys (g : Grouping) : List Value :=
  g.map (fun kl => kl.1)

example : appendAt (appendAt [] (Value.str "a") []) (Value.str "a") [] =
    [(Value.str "a", [])] := by decide

/-- The runtime environment facts the module depends on: whether the
optional `telethon` dependency can be imported. -/
structure PyEnv where
  telethon_available : Bool

/-- An adapter's outcome: the `{user_id: [posts]}` grouping it returns,
together with the number of API calls it performed on its client. -/
structure Collected where
  result : Grouping
  api_calls : Nat
deriving DecidableEq

/-! ## X (Twitter), source lines 75-120 -/

/-- A tweet as read by `collect_from_x`: `id`, `author_id`, `text`,
`lang` are dynamic values; `created_at` is an optional datetime, kept as
its `isoformat()` string; `entities['hashtags']` is an optional list of
`{'tag': ...}` entries. -/
structure Tweet where
  id : Value
  author_id : Value
  text : Value
  created_at : Option String
  lang : Value
  entities_hashtags : Option (List String)

/-- An X API client: `search_recent_tweets(query, max_results)` returns
a response whose `data` may be `None`. -/
structure XClient where
  search_recent_tweets : String → Nat → Option (List Tweet)

/-- The `Post(...)` built in `collect_from_x`'s loop body
(source lines 108-117). -/
def mkXPost (tweet : Tweet) : Post :=
  { post_id := Value.str (pyStr tweet.id)
    user_id := Value.str (pyStr tweet.author_id)
    content := tweet.text
    metadata :=
      [("created_at",
          match tweet.created_at with
          | some s => Value.str s
          | none => Value.null),
       ("lang", tweet.lang),
       ("hashtags", Value.strlist (tweet.entities_hashtags.getD []))] }

/-- Loop body of `collect_from_x` (source lines 106-118):
`results.setdefault(str(user_id), []).append(post)`. -/
def xStep (results : Grouping) (tweet : Tweet) : Grouping :=
  appendAt results (Value.str (pyStr tweet.author_id)) [mkXPost tweet]

/-- Embedding of `collect_from_x` (source lines 75-120), with the `api_client is
None` guard fragment of source lines 27-29. -/
def collect_from_x (_env : PyEnv) (api_client : Option XClient)
    (query : String) (max_results : Nat) : Collected :=
  match api_client with
  | none => { result := [], api_calls := 0 }
  | some client =>
      let response := client.search_recent_tweets query max_results
      { result := (response.getD []).foldl xStep []
        api_calls := 1 }

/-! ## Telegram, source lines 123-162 -/

/-- A Telegram message as read by `collect_from_telegram`: `sender_id`
may be `None`; `date` is a datetime, kept as its `isoformat()` string. -/
structure TgMessage where
  id : Value
  sender_id : Option Value
  text : Value
  date : String
  views : Value

/-- A Telethon client: `iter_messages(entity, limit)` yields messages. -/
structure TgClient where
  iter_messages : String → Nat → List TgMessage

/-- The `Post(...)` built in `collect_from_telegram`'s loop body
(source lines 154-159), for a message whose `sender_id` is `sid`. -/
def mkTgPost (message : TgMessage) (sid : Value) : Post :=
  { post_id := Value.str (pyStr message.id)
    user_id := Value.str (pyStr sid)
    content := message.text
    metadata := [("date", Value.str message.date), ("views", message.views)] }

/-- Loop body of `collect_from_telegram` (source lines 151-160):
messages with `sender_id is None` are skipped, others are appended under
`post.user_id`. -/
def tgStep (results : Grouping) (message : TgMessage) : Grouping :=
  match message.sender_id with
  | none => results
  | some sid => appendAt results (mkTgPost message sid).user_id [mkTgPost message sid]

/-- Embedding of `collect_from_telegram` (source lines 123-162), with the
`from telethon import events` try/except fragment of source lines 31-35
and the `client is None` guard fragment of source lines 37-39. -/
def collect_from_telegram (env : PyEnv) (client : Option TgClient)
    (channel : String) (limit : Nat) : Collected :=
  if !env.telethon_available then { result := [], api_calls := 0 }
  else
    match client with
    | none => { result := [], api_calls := 0 }
    | some c =>
        { result := (c.iter_messages channel limit).foldl tgStep []
          api_calls := 1 }

/-! ## YouTube, source lines 165-206 -/

/-- The `snippet` of a YouTube search item: `title` and `publishedAt`
are required keys; `description` is read with `.get`. -/
structure YtSnippet where
  title : Value
  publishedAt : Value
  description : Option Value

/-- A YouTube search item: `item['id'].get('videoId')` may be absent;
`item['snippet']` is required. -/
structure YtItem where
  id_videoId : Option String
  snippet : YtSnippet

/-- A YouTube API client: `search().list(part, channelId,
maxResults).execute()` returns a response whose `items` key is read
with `.get('items', [])`. -/
structure YtClient where
  search_list : String → String → Nat → Option (List YtItem)

/-- The `Post(...)` built in `collect_from_youtube`'s loop body
(source lines 195-203), for a present `video_id`. -/
def mkYtPost (channel_id : String) (video_id : String) (snippet : YtSnippet) : Post :=
  { post_id := Value.str video_id
    user_id := Value.str channel_id
    content := snippet.title
    metadata :=
      [("published_at", snippet.publishedAt),
       ("description", snippet.description.getD Value.null)] }

/-- Loop body of `collect_from_youtube` (source lines 190-204): items
whose `videoId` is missing or falsy (empty) are skipped; others are
appended under the caller-supplied `channel_id`. -/
def ytStep (channel_id : String) (results : Grouping) (item : YtItem) : Grouping :=
  match item.id_videoId with
  | none => results
  | some video_id =>
      if video_id = "" then results
      else appendAt results (Value.str channel_id) [mkYtPost channel_id video_id item.snippet]

/-- Embedding of `collect_from_youtube` (source lines 165-206), with the `api_client
is None` guard fragment of source lines 41-43. -/
def collect_from_youtube (_env : PyEnv) (api_client : Option YtClient)
    (channel_id : String) (max_results : Nat) : Collected :=
  match api_client with
  | none => { result := [], api_calls := 0 }
  | some client =>
      let response := client.search_list "snippet" channel_id max_results
      { result := (response.getD []).foldl (ytStep channel_id) []
        api_calls := 1 }

/-! ## TikTok, source lines 209-247 -/

/-- The `stats` dict of a TikTok video, read with
`video.get('stats', {}).get('diggCount')`. -/
structure TikStats where
  diggCount : Option Value

/-- A TikTok video: `video['id']` and `video['author']['id']` are
required keys (and are NOT passed through `str()` by the code);
`desc`, `createTime`, `stats` are read with `.get`. -/
structure TikVideo where
  id : Value
  author_id : Value
  desc : Option Value
  createTime : Option Value
  stats : Option TikStats

/-- A TikTok Research API client: `search_videos(query, max_count)`
returns a response whose `data` key is read with `.get('data', [])`. -/
structure TikClient where
  search_videos : String → Nat → Option (List TikVideo)

/-- The `Post(...)` built in `collect_from_tiktok`'s loop body
(source lines 236-244).  Note `post_id` and `user_id` keep the source
values unchanged: the code applies no `str()` here. -/
def mkTikPost (video : TikVideo) : Post :=
  { post_id := video.id
    user_id := video.author_id
    content := video.desc.getD (Value.str "")
    metadata :=
      [("create_time", video.createTime.getD Value.null),
       ("like_count", ((video.stats.getD { diggCount := none }).diggCount).getD Value.null)] }

/-- Loop body of `collect_from_tiktok` (source lines 234-245):
`results.setdefault(creator_id, []).append(post)`. -/
def tikStep (results : Grouping) (video : TikVideo) : Grouping :=
  appendAt results video.author_id [mkTikPost video]

/-- Embedding of `collect_from_tiktok` (source lines 209-247), with the `api_client
is None` guard fragment of source lines 45-47. -/
def collect_from_tiktok (_env : PyEnv) (api_client : Option TikClient)
    (query : String) (limit : Nat) : Collected :=
  match api_client with
  | none => { result := [], api_calls := 0 }
  | some client =>
      let response := client.search_videos query limit
      { result := (response.getD []).foldl tikStep []
        api_calls := 1 }

/-! ## Xiaohongshu, source lines 250-288 -/

/-- A Xiaohongshu note: `note['id']` and `note['user_id']` are required
keys (and are NOT passed through `str()` by the code); `title`, `likes`,
`comments` are read with `.get`. -/
structure XhsNote where
  id : Value
  user_id : Value
  title : Option Value
  likes : Option Value
  comments : Option Value

/-- A Xiaohongshu client: `get('/notes/search', params={'keyword': ...,
'page_size': ...})` returns a response whose `data` key is read with
`.get('data', [])`. -/
structure XhsClient where
  get : String → String → Nat → Option (List XhsNote)

/-- The `Post(...)` built in `collect_from_xiaohongshu`'s loop body
(source lines 277-285). -/
def mkXhsPost (note : XhsNote) : Post :=
  { post_id := note.id
    user_id := note.user_id
    content := note.title.getD (Value.str "")
    metadata :=
      [("likes", note.likes.getD Value.null),
       ("comments", note.comments.getD Value.null)] }

/-- Loop body of `collect_from_xiaohongshu` (source lines 276-286):
`results.setdefault(post.user_id, []).append(post)`. -/
def xhsStep (results : Grouping) (note : XhsNote) : Grouping :=
  appendAt results (mkXhsPost note).user_id [mkXhsPost note]

/-- Embedding of `collect_from_xiaohongshu` (source lines 250-288), with the
`api_client is None` guard fragment of source lines 50-52. -/
def collect_from_xiaohongshu (_env : PyEnv) (api_client : Option XhsClient)
    (keyword : String) (limit : Nat) : Collected :=
  match api_client with
  | none => { result := [], api_calls := 0 }
  | some client =>
      let response := client.get "/notes/search" keyword limit
      { result := (response.getD []).foldl xhsStep []
        api_calls := 1 }

/-! ## Bilibili, source lines 291-334 -/

/-- A Bilibili video entry of the `vlist`: `bvid` and `title` are
required keys; `play`, `like`, `video_review` are read with `.get`. -/
structure BiliVideo where
  bvid : Value
  title : Value
  play : Option Value
  like : Option Value
  video_review : Option Value

/-- The nested response of the Bilibili space endpoint, unwrapped with
`response.get('data', {}).get('list', {}).get('vlist', [])`: each level
may be missing. -/
structure BiliData where
  list : Option (Option (List BiliVideo))

/-- A Bilibili client: `get(url, params={'mid': uid, 'ps': limit,
'pn': 1})` returns the nested response. -/
structure BiliClient where
  get : String → String → Nat → Nat → Option BiliData

/-- The `Post(...)` built in `collect_from_bilibili`'s loop body
(source lines 322-331), grouped under the caller-supplied `uid`. -/
def mkBiliPost (uid : String) (video : BiliVideo) : Post :=
  { post_id := video.bvid
    user_id := Value.str uid
    content := video.title
    metadata :=
      [("view", video.play.getD Value.null),
       ("like", video.like.getD Value.null),
       ("danmaku", video.video_review.getD Value.null)] }

/-- Loop body of `collect_from_bilibili` (source lines 321-332):
`results.setdefault(uid, []).append(post)`. -/
def biliStep (uid : String) (results : Grouping) (video : BiliVideo) : Grouping :=
  appendAt results (Value.str uid) [mkBiliPost uid video]

/-- Embedding of `collect_from_bilibili` (source lines 291-334), with the
`api_client is None` guard fragment of source lines 54-56. -/
def collect_from_bilibili (_env : PyEnv) (api_client : Option BiliClient)
    (uid : String) (limit : Nat) : Collected :=
  match api_client with
  | none => { result := [], api_calls := 0 }
  | some client =>
      let response := client.get "https://api.bilibili.com/x/space/arc/search" uid limit 1
      let data := (((response.getD { list := none }).list.getD none).getD [])
      { result := data.foldl (biliStep uid) []
        api_calls := 1 }

/-! ## merge_results, source lines 337-343 -/

/-- Embedding of `merge_results(*sources)` (source lines 337-343): fold the sources
in argument order, and for each `(uid, posts)` entry of each source do
`merged.setdefault(uid, []).extend(posts)`. -/
def merge_results (sources : List Grouping) : Grouping :=
  sources.foldl
    (fun merged source =>
      source.foldl (fun m kv => appendAt m kv.1 kv.2) merged)
    []

/-! ## Derived notions used by the verification -/

/-- The posts a grouping holds for key `k`: concatenation of the lists
of all entries whose key is `k` (a grouping built by this module has at
most one such entry). -/
def postsIn (g : Grouping) (k : Value) : List Post :=
  ((g.filter (fun kl => kl.1 = k)).map (fun kl => kl.2)).flatten

/-- A grouping whose keys are pairwise distinct, as every Python dict's
keys are. -/
def NodupKeys (g : Grouping) : Prop :=
  (keys g).Nodup

instance (g : Grouping) : Decidable (NodupKeys g) :=
  inferInstanceAs (Decidable (keys g).Nodup)

/-- The grouping invariant: every post stored under key `k` has
`user_id` equal to `k`. -/
def GoodGrouping (g : Grouping) : Prop :=
  ∀ kl ∈ g, ∀ p ∈ kl.2, p.user_id = kl.1

/-- Python truthiness of the optional `videoId`: `if not video_id`
skips both a missing id and an empty-string id. -/
def ytTruthy : Option String → Bool
  | none => false
  | some v => v != ""

/-- Lookup in a `to_dict` mapping (Python `d[k]`; `None`-valued default
for a key that is absent, which never happens on a `to_dict` result). -/
def lookupDV : List (String × DictVal) → String → DictVal
  | [], _ => DictVal.val Value.null
  | (k', v) :: rest, k => if k' = k then v else lookupDV rest k

/-- The scalar carried by a `to_dict` value. -/
def asVal : DictVal → Value
  | DictVal.val v => v
  | DictVal.dict _ => Value.null

/-- The dict carried by a `to_dict` value. -/
def asDict : DictVal → List (String × Value)
  | DictVal.val _ => []
  | DictVal.dict kvs => kvs

/-- Re-construction of a `Post` from the four fields of a `to_dict`
mapping (the round trip `Post(**d)` the spec describes). -/
def postOfDict (d : List (String × DictVal)) : Post :=
  { post_id := asVal (lookupDV d "post_id")
    user_id := asVal (lookupDV d "user_id")
    content := asVal (lookupDV d "content")
    metadata := asDict (lookupDV d "metadata") }

/-- A TikTok client whose response carries numeric identifiers, as the
TikTok Research API may: one video with integer `id` and integer
`author.id`. -/
def tikNumericClient : TikClient :=
  { search_videos := fun _ _ =>
      some [{ id := Value.int 123
              author_id := Value.int 987
              desc := some (Value.str "caption")
              createTime := none
              stats := none }] }

/-- A Xiaohongshu client whose response carries a numeric note id and
numeric user id. -/
def xhsNumericClient : XhsClient :=
  { get := fun _ _ _ =>
      some [{ id := Value.int 41
              user_id := Value.int 7
              title := some (Value.str "note")
              likes := none
              comments := none }] }

/-- The Bilibili client of the spec's end-to-end scenario: one video
entry with `bvid` "BV1", `title` "T", `play` 10, `like` 2,
`video_review` 1. -/
def biliDemoClient : BiliClient :=
  { get := fun _ _ _ _ =>
      some { list := some (some
        [{ bvid := Value.str "BV1"
           title := Value.str "T"
           play := some (Value.int 10)
           like := some (Value.int 2)
           video_review := some (Value.int 1) }]) } }

/-- A Telegram client yielding one message with a sender and one
sender-less message. -/
def tgDemoClient : TgClient :=
  { iter_messages := fun _ _ =>
      [{ id := Value.int 1
         sender_id := some (Value.int 5)
         text := Value.str "hello"
         date := "2025-01-01T12:00:00"
         views := Value.int 3 },
       { id := Value.int 2
         sender_id := none
         text := Value.str "service message"
         date := "2025-01-01T12:05:00"
         views := Value.null }] }

/-- A YouTube client yielding one item with a video id and one item
without. -/
def ytDemoClient : YtClient :=
  { search_list := fun _ _ _ =>
      some [{ id_videoId := some "v1"
              snippet := { title := Value.str "T1"
                           publishedAt := Value.str "2025-01-01T00:00:00Z"
                           description := some (Value.str "d1") } },
            { id_videoId := none
              snippet := { title := Value.str "T2"
                           publishedAt := Value.str "2025-01-02T00:00:00Z"
                           description := none } }] }

/-- A demonstration tweet with the given author id, used to instantiate
the grouping-order theorem. -/
def demoTweet (n : Int) (a : Int) : Tweet :=
  { id := Value.int n
    author_id := Value.int a
    text := Value.str "text"
    created_at := none
    lang := Value.str "en"
    entities_hashtags := none }

/-- A demonstration Telegram message with the given id. -/
def demoMessage (n : Int) (s : Int) : TgMessage :=
  { id := Value.int n
    sender_id := some (Value.int s)
    text := Value.str "m"
    date := "2025-01-01T00:00:00"
    views := Value.int 1 }

/-- A demonstration TikTok video with the given author id. -/
def demoVideo (n : Int) (a : Int) : TikVideo :=
  { id := Value.int n
    author_id := Value.int a
    desc := none
    createTime := none
    stats := none }

/-- A demonstration Xiaohongshu note with the given user id. -/
def demoNote (n : Int) (u : Int) : XhsNote :=
  { id := Value.int n
    user_id := Value.int u
    title := none
    likes := none
    comments := none }

/-! ## Lemmas about groupings -/

theorem goodGrouping_nil : GoodGrouping [] := by
  intro kl hkl
  cases hkl

theorem mem_posts_appendAt (g : Grouping) (k : Value) (ps : List Post) (p : Post) :
    p ∈ posts (appendAt g k ps) ↔ p ∈ posts g ∨ p ∈ ps := by
  induction g with
  | nil => simp [appendAt, posts]
  | cons kl rest ih =>
      obtain ⟨k', v⟩ := kl
      by_cases h : k' = k
      · simp only [appendAt, if_pos h, posts, List.map_cons, List.flatten_cons,
          List.mem_append]
        simp only [posts] at *
        tauto
      · simp only [appendAt, if_neg h, posts, List.map_cons, List.flatten_cons,
          List.mem_append]
        simp only [posts] at ih
        tauto

theorem totalPosts_appendAt (g : Grouping) (k : Value) (ps : List Post) :
    totalPosts (appendAt g k ps) = totalPosts g + ps.length := by
  induction g with
  | nil => simp [appendAt, totalPosts]
  | cons kl rest ih =>
      obtain ⟨k', v⟩ := kl
      by_cases h : k' = k
      · simp only [appendAt, if_pos h, totalPosts, List.map_cons, List.sum_cons,
          List.length_append]
        omega
      · simp only [appendAt, if_neg h, totalPosts, List.map_cons, List.sum_cons] at ih ⊢
        omega

theorem keys_appendAt (g : Grouping) (k : Value) (ps : List Post) :
    keys (appendAt g k ps) = if k ∈ keys g then keys g else keys g ++ [k] := by
  induction g with
  | nil => simp [appendAt, keys]
  | cons kl rest ih =>
      obtain ⟨k', v⟩ := kl
      by_cases h : k' = k
      · subst h
        simp [appendAt, keys]
      · have hne : ¬ k = k' := fun hc => h hc.symm
        rw [show appendAt ((k', v) :: rest) k ps = (k', v) :: appendAt rest k ps from by
          simp [appendAt, h]]
        simp only [keys, List.map_cons] at ih ⊢
        rw [ih]
        by_cases hm : k ∈ List.map (fun kl => kl.1) rest
        · simp [hm, hne]
        · simp [hm, hne]

theorem nodupKeys_appendAt (g : Grouping) (k : Value) (ps : List Post)
    (hg : NodupKeys g) : NodupKeys (appendAt g k ps) := by
  unfold NodupKeys at *
  rw [keys_appendAt]
  by_cases hm : k ∈ keys g
  · simpa [hm] using hg
  · simp [hm, List.nodup_append, hg]

theorem appendAt_of_not_mem (g : Grouping) (k : Value) (ps : List Post)
    (h : k ∉ keys g) : appendAt g k ps = g ++ [(k, ps)] := by
  induction g with
  | nil => simp [appendAt]
  | cons kl rest ih =>
      obtain ⟨k', v⟩ := kl
      simp only [keys, List.map_cons, List.mem_cons] at h
      push_neg at h
      have h1 : ¬ k' = k := fun hc => h.1 hc.symm
      have h2 : appendAt rest k ps = rest ++ [(k, ps)] :=
        ih (by simpa [keys] using h.2)
      simp [appendAt, h1, h2]

theorem postsIn_cons (k0 : Value) (v : List Post) (rest : Grouping) (k : Value) :
    postsIn ((k0, v) :: rest) k
      = if k0 = k then v ++ postsIn rest k else postsIn rest k := by
  by_cases h : k0 = k <;> simp [postsIn, List.filter_cons, h]

theorem postsIn_of_not_mem (g : Grouping) (k : Value) (h : k ∉ keys g) :
    postsIn g k = [] := by
  induction g with
  | nil => simp [postsIn]
  | cons kl rest ih =>
      obtain ⟨k', v⟩ := kl
      simp only [keys, List.map_cons, List.mem_cons] at h
      push_neg at h
      rw [postsIn_cons, if_neg (fun hc => h.1 hc.symm)]
      exact ih (by simpa [keys] using h.2)

theorem postsIn_appendAt (g : Grouping) (k : Value) (ps : List Post) (k' : Value)
    (hg : NodupKeys g) :
    postsIn (appendAt g k ps) k'
      = if k' = k then postsIn g k' ++ ps else postsIn g k' := by
  induction g with
  | nil =>
      by_cases h : k' = k
      · subst h
        simp [appendAt, postsIn_cons, postsIn]
      · simp [appendAt, postsIn_cons, postsIn, h, fun hc : k = k' => h hc.symm]
  | cons kl rest ih =>
      obtain ⟨k0, v⟩ := kl
      have hcons := List.nodup_cons.mp (show (k0 :: keys rest).Nodup by
        simpa [NodupKeys, keys] using hg)
      have hk0 : k0 ∉ keys rest := hcons.1
      have hg' : NodupKeys rest := hcons.2
      by_cases h0 : k0 = k
      · subst h0
        rw [show appendAt ((k0, v) :: rest) k0 ps = (k0, v ++ ps) :: rest from by
          simp [appendAt]]
        rw [postsIn_cons, postsIn_cons]
        by_cases h' : k0 = k'
        · subst h'
          simp [postsIn_of_not_mem rest k0 hk0]
        · have hne : ¬ k' = k0 := fun hc => h' hc.symm
          simp [h', hne]
      · rw [show appendAt ((k0, v) :: rest) k ps = (k0, v) :: appendAt rest k ps from by
          simp [appendAt, h0]]
        rw [postsIn_cons, ih hg', postsIn_cons]
        by_cases h' : k' = k
        · subst h'
          simp [h0]
        · simp [h']

/-! ## Lemmas about folds of grouping steps -/

theorem totalPosts_foldl {α : Type} (step : Grouping → α → Grouping) (w : α → Nat)
    (hw : ∀ g i, totalPosts (step g i) = totalPosts g + w i) :
    ∀ (l : List α) (g0 : Grouping),
      totalPosts (l.foldl step g0) = totalPosts g0 + (l.map w).sum := by
  intro l
  induction l with
  | nil => intro g0; simp
  | cons i l ih =>
      intro g0
      simp only [List.foldl_cons, List.map_cons, List.sum_cons, ih, hw]
      omega

theorem sum_map_ite_eq_length_filter {α : Type} (p : α → Bool) (l : List α) :
    (l.map (fun a => if p a then 1 else 0)).sum = (l.filter p).length := by
  induction l with
  | nil => rfl
  | cons a l ih =>
      by_cases h : p a
      · simp [h, ih, List.filter_cons]
        omega
      · simp [h, ih, List.filter_cons]

theorem mem_posts_foldl_mono {α : Type} (step : Grouping → α → Grouping)
    (hstep : ∀ g i p, p ∈ posts g → p ∈ posts (step g i)) :
    ∀ (l : List α) (g0 : Grouping) (p : Post),
      p ∈ posts g0 → p ∈ posts (l.foldl step g0) := by
  intro l
  induction l with
  | nil => intro g0 p hp; simpa using hp
  | cons i l ih => intro g0 p hp; exact ih _ _ (hstep _ _ _ hp)

theorem mem_posts_foldl_of_mem {α : Type} (step : Grouping → α → Grouping)
    (hstep : ∀ g i p, p ∈ posts g → p ∈ posts (step g i))
    (l : List α) (i : α) (hi : i ∈ l) (p : Post)
    (hp : ∀ g, p ∈ posts (step g i)) :
    ∀ g0, p ∈ posts (l.foldl step g0) := by
  induction l with
  | nil => cases hi
  | cons j l ih =>
      intro g0
      rcases List.mem_cons.mp hi with h | h
      · subst h
        exact mem_posts_foldl_mono step hstep l _ p (hp g0)
      · exact ih h _

theorem goodGrouping_appendAt (k : Value) (ps : List Post)
    (hps : ∀ p ∈ ps, p.user_id = k) :
    ∀ (g : Grouping), GoodGrouping g → GoodGrouping (appendAt g k ps) := by
  intro g
  induction g with
  | nil =>
      intro _ kl hkl p hp
      simp only [appendAt, List.mem_singleton] at hkl
      subst hkl
      exact hps p hp
  | cons hd rest ih =>
      intro hg
      obtain ⟨k', v⟩ := hd
      have hhd : ∀ p ∈ v, p.user_id = k' := fun p hp => hg (k', v) (by simp) p hp
      have hrest : GoodGrouping rest := fun kl hkl p hp => hg kl (by simp [hkl]) p hp
      by_cases h : k' = k
      · subst h
        rw [show appendAt ((k', v) :: rest) k' ps = (k', v ++ ps) :: rest from by
          simp [appendAt]]
        intro kl hkl p hp
        rcases List.mem_cons.mp hkl with rfl | hkl
        · rcases List.mem_append.mp hp with hv | hps'
          · exact hhd p hv
          · exact hps p hps'
        · exact hrest kl hkl p hp
      · rw [show appendAt ((k', v) :: rest) k ps = (k', v) :: appendAt rest k ps from by
          simp [appendAt, h]]
        intro kl hkl p hp
        rcases List.mem_cons.mp hkl with rfl | hkl
        · exact hhd p hp
        · exact ih hrest kl hkl p hp

theorem goodGrouping_foldl {α : Type} (step : Grouping → α → Grouping)
    (hstep : ∀ g i, GoodGrouping g → GoodGrouping (step g i)) :
    ∀ (l : List α) (g0 : Grouping),
      GoodGrouping g0 → GoodGrouping (l.foldl step g0) := by
  intro l
  induction l with
  | nil => intro g0 h; simpa using h
  | cons i l ih => intro g0 h; exact ih _ (hstep _ _ h)

/-! ## Lemmas about merge_results -/

theorem nodupKeys_innerFold (source : Grouping) :
    ∀ m : Grouping, NodupKeys m →
      NodupKeys (source.foldl (fun m kv => appendAt m kv.1 kv.2) m) := by
  induction source with
  | nil => intro m hm; simpa using hm
  | cons kv rest ih =>
      intro m hm
      exact ih _ (nodupKeys_appendAt m kv.1 kv.2 hm)

theorem postsIn_innerFold (k : Value) (source : Grouping) :
    ∀ m : Grouping, NodupKeys m →
      postsIn (source.foldl (fun m kv => appendAt m kv.1 kv.2) m) k
        = postsIn m k ++ postsIn source k := by
  induction source with
  | nil => intro m _; simp [postsIn]
  | cons kv rest ih =>
      intro m hm
      obtain ⟨k0, v⟩ := kv
      rw [List.foldl_cons, ih _ (nodupKeys_appendAt m k0 v hm),
        postsIn_appendAt m k0 v k hm, postsIn_cons]
      by_cases h : k = k0
      · subst h
        simp
      · have hne : ¬ k0 = k := fun hc => h hc.symm
        simp [h, hne]

theorem innerFold_disjoint (source : Grouping) :
    ∀ m : Grouping, NodupKeys source → (∀ x ∈ keys source, x ∉ keys m) →
      source.foldl (fun m kv => appendAt m kv.1 kv.2) m = m ++ source := by
  induction source with
  | nil => intro m _ _; simp
  | cons kv rest ih =>
      intro m hnd hdisj
      obtain ⟨k0, v⟩ := kv
      have hcons := List.nodup_cons.mp (show (k0 :: keys rest).Nodup by
        simpa [NodupKeys, keys] using hnd)
      have hk0m : k0 ∉ keys m := hdisj k0 (by simp [keys])
      have hnd' : NodupKeys rest := by
        simpa [NodupKeys, keys] using hcons.2
      have hdisj' : ∀ x ∈ keys rest, x ∉ keys (m ++ [(k0, v)]) := by
        intro x hx
        have hxm : x ∉ keys m := hdisj x (by
          simp only [keys, List.map_cons, List.mem_cons]
          right
          simpa [keys] using hx)
        have hxk0 : ¬ x = k0 := by
          intro hc
          subst hc
          exact hcons.1 (by simpa [keys] using hx)
        simp only [keys, List.map_append, List.map_cons, List.map_nil,
          List.mem_append, List.mem_singleton]
        push_neg
        exact ⟨by simpa [keys] using hxm, hxk0⟩
      rw [List.foldl_cons, appendAt_of_not_mem m k0 v hk0m, ih _ hnd' hdisj']
      simp

theorem postsIn_mergeFold (k : Value) (sources : List Grouping) :
    ∀ m : Grouping, NodupKeys m →
      postsIn (sources.foldl
          (fun merged source =>
            source.foldl (fun m kv => appendAt m kv.1 kv.2) merged) m) k
        = postsIn m k ++ (sources.map (fun s => postsIn s k)).flatten := by
  induction sources with
  | nil => intro m _; simp
  | cons s rest ih =>
      intro m hm
      rw [List.foldl_cons, ih _ (nodupKeys_innerFold s m hm),
        postsIn_innerFold k s m hm]
      simp

/-! ## Per-adapter step lemmas -/

theorem xStep_good : ∀ g t, GoodGrouping g → GoodGrouping (xStep g t) := by
  intro g t hg
  refine goodGrouping_appendAt _ _ ?_ g hg
  intro p hp
  simp only [List.mem_singleton] at hp
  subst hp
  rfl

theorem tgStep_eq (g : Grouping) (m : TgMessage) (sid : Value)
    (h : m.sender_id = some sid) :
    tgStep g m = appendAt g (Value.str (pyStr sid)) [mkTgPost m sid] := by
  simp [tgStep, h, mkTgPost]

theorem tgStep_good : ∀ g m, GoodGrouping g → GoodGrouping (tgStep g m) := by
  intro g m hg
  cases h : m.sender_id with
  | none => simpa [tgStep, h] using hg
  | some sid =>
      rw [tgStep_eq g m sid h]
      refine goodGrouping_appendAt _ _ ?_ g hg
      intro p hp
      simp only [List.mem_singleton] at hp
      subst hp
      rfl

theorem ytStep_eq (cid : String) (g : Grouping) (i : YtItem) (vid : String)
    (h : i.id_videoId = some vid) (hv : ¬ vid = "") :
    ytStep cid g i = appendAt g (Value.str cid) [mkYtPost cid vid i.snippet] := by
  simp [ytStep, h, hv]

theorem ytStep_good (cid : String) :
    ∀ g i, GoodGrouping g → GoodGrouping (ytStep cid g i) := by
  intro g i hg
  cases h : i.id_videoId with
  | none => simpa [ytStep, h] using hg
  | some vid =>
      by_cases hv : vid = ""
      · simpa [ytStep, h, hv] using hg
      · rw [ytStep_eq cid g i vid h hv]
        refine goodGrouping_appendAt _ _ ?_ g hg
        intro p hp
        simp only [List.mem_singleton] at hp
        subst hp
        rfl

theorem tikStep_good : ∀ g v, GoodGrouping g → GoodGrouping (tikStep g v) := by
  intro g v hg
  refine goodGrouping_appendAt _ _ ?_ g hg
  intro p hp
  simp only [List.mem_singleton] at hp
  subst hp
  rfl

theorem xhsStep_good : ∀ g n, GoodGrouping g → GoodGrouping (xhsStep g n) := by
  intro g n hg
  refine goodGrouping_appendAt _ _ ?_ g hg
  intro p hp
  simp only [List.mem_singleton] at hp
  subst hp
  rfl

theorem biliStep_good (uid : String) :
    ∀ g v, GoodGrouping g → GoodGrouping (biliStep uid g v) := by
  intro g v hg
  refine goodGrouping_appendAt _ _ ?_ g hg
  intro p hp
  simp only [List.mem_singleton] at hp
  subst hp
  rfl

theorem totalPosts_tgStep (g : Grouping) (m : TgMessage) :
    totalPosts (tgStep g m)
      = totalPosts g + (if m.sender_id.isSome then 1 else 0) := by
  cases h : m.sender_id <;> simp [tgStep, h, totalPosts_appendAt]

theorem totalPosts_ytStep (cid : String) (g : Grouping) (i : YtItem) :
    totalPosts (ytStep cid g i)
      = totalPosts g + (if ytTruthy i.id_videoId then 1 else 0) := by
  cases h : i.id_videoId with
  | none => simp [ytStep, h, ytTruthy]
  | some vid =>
      by_cases hv : vid = "" <;>
        simp [ytStep, h, ytTruthy, hv, totalPosts_appendAt, bne_iff_ne]

theorem tgStep_mem_mono : ∀ g m p, p ∈ posts g → p ∈ posts (tgStep g m) := by
  intro g m p hp
  cases h : m.sender_id with
  | none => simpa [tgStep, h] using hp
  | some sid =>
      rw [tgStep_eq g m sid h]
      exact (mem_posts_appendAt _ _ _ _).mpr (Or.inl hp)

theorem ytStep_mem_mono (cid : String) :
    ∀ g i p, p ∈ posts g → p ∈ posts (ytStep cid g i) := by
  intro g i p hp
  cases h : i.id_videoId with
  | none => simpa [ytStep, h] using hp
  | some vid =>
      by_cases hv : vid = ""
      · simpa [ytStep, h, hv] using hp
      · rw [ytStep_eq cid g i vid h hv]
        exact (mem_posts_appendAt _ _ _ _).mpr (Or.inl hp)

theorem appendAt_aba (A B : Value) (p1 p2 p3 : Post) (h : ¬ B = A) :
    appendAt (appendAt (appendAt [] A [p1]) B [p2]) A [p3]
      = [(A, [p1, p3]), (B, [p2])] := by
  have h' : ¬ A = B := fun hc => h hc.symm
  simp [appendAt, h, h']

/-! ## Claim theorems -/

/-- C1: for every one of the six adapters, when the client/session
argument is absent (`None`), the adapter performs no call on the client
and returns an empty grouping. -/
theorem collect_absent_client (env : PyEnv) (query : String)
    (max_results : Nat) (channel : String) (limit : Nat)
    (channel_id : String) (keyword : String) (uid : String) :
    collect_from_x env none query max_results = ⟨[], 0⟩
    ∧ collect_from_telegram env none channel limit = ⟨[], 0⟩
    ∧ collect_from_youtube env none channel_id max_results = ⟨[], 0⟩
    ∧ collect_from_tiktok env none query limit = ⟨[], 0⟩
    ∧ collect_from_xiaohongshu env none keyword limit = ⟨[], 0⟩
    ∧ collect_from_bilibili env none uid limit = ⟨[], 0⟩ := by
  obtain ⟨b⟩ := env
  refine ⟨rfl, ?_, rfl, rfl, rfl, rfl⟩
  cases b <;> rfl

/-- C2: constructing a `Post` with the four arguments `post_id`,
`user_id`, `content`, `metadata` always succeeds, for every choice of
argument values, and yields a record carrying exactly those fields. -/
theorem post_construction_total (pid uid c : Value)
    (md : List (String × Value)) :
    (Post.mk pid uid c md).post_id = pid
    ∧ (Post.mk pid uid c md).user_id = uid
    ∧ (Post.mk pid uid c md).content = c
    ∧ (Post.mk pid uid c md).metadata = md :=
  ⟨rfl, rfl, rfl, rfl⟩

/-- C3: if the `telethon` optional dependency is unavailable,
`collect_from_telegram` returns an empty grouping (making no API call)
instead of failing, and each of the other five adapters is unaffected
by the environment. -/
theorem telethon_unavailable_degrades (env : PyEnv)
    (h : env.telethon_available = false)
    (client : Option TgClient) (channel : String) (limit : Nat) :
    collect_from_telegram env client channel limit = ⟨[], 0⟩
    ∧ (∀ (e e' : PyEnv) (c : Option XClient) (q : String) (m : Nat),
        collect_from_x e c q m = collect_from_x e' c q m)
    ∧ (∀ (e e' : PyEnv) (c : Option YtClient) (cid : String) (m : Nat),
        collect_from_youtube e c cid m = collect_from_youtube e' c cid m)
    ∧ (∀ (e e' : PyEnv) (c : Option TikClient) (q : String) (m : Nat),
        collect_from_tiktok e c q m = collect_from_tiktok e' c q m)
    ∧ (∀ (e e' : PyEnv) (c : Option XhsClient) (kw : String) (m : Nat),
        collect_from_xiaohongshu e c kw m = collect_from_xiaohongshu e' c kw m)
    ∧ (∀ (e e' : PyEnv) (c : Option BiliClient) (u : String) (m : Nat),
        collect_from_bilibili e c u m = collect_from_bilibili e' c u m) := by
  refine ⟨?_, fun _ _ _ _ _ => rfl, fun _ _ _ _ _ => rfl, fun _ _ _ _ _ => rfl,
    fun _ _ _ _ _ => rfl, fun _ _ _ _ _ => rfl⟩
  simp [collect_from_telegram, h]

/-- Witness for C3 at a concrete environment and client. -/
theorem telethon_unavailable_degrades_witness :
    (PyEnv.mk false).telethon_available = false
    ∧ collect_from_telegram ⟨false⟩ (some tgDemoClient) "channel" 10 = ⟨[], 0⟩ :=
  ⟨rfl, (telethon_unavailable_degrades ⟨false⟩ rfl (some tgDemoClient)
    "channel" 10).1⟩

/-- C4 (code evidence): `collect_from_tiktok` and
`collect_from_xiaohongshu` do NOT coerce identifiers to strings.  On a
response whose ids are numbers, the emitted `Post` carries the numeric
values unchanged (contradicting the string `post_id`/`user_id`
annotations of `Post` and the docstring examples). -/
theorem tiktok_xhs_ids_keep_native_type :
    (collect_from_tiktok ⟨true⟩ (some tikNumericClient) "query" 10).result
      = [(Value.int 987,
          [{ post_id := Value.int 123
             user_id := Value.int 987
             content := Value.str "caption"
             metadata := [("create_time", Value.null),
                          ("like_count", Value.null)] }])]
    ∧ (∀ s : String, (Value.int 123 : Value) ≠ Value.str s)
    ∧ (collect_from_xiaohongshu ⟨true⟩ (some xhsNumericClient) "kw" 10).result
      = [(Value.int 7,
          [{ post_id := Value.int 41
             user_id := Value.int 7
             content := Value.str "note"
             metadata := [("likes", Value.null),
                          ("comments", Value.null)] }])] := by
  refine ⟨by decide, fun s => by simp, by decide⟩

/-- C5: `to_dict` produces a string-keyed mapping with exactly the keys
`post_id`, `user_id`, `content`, `metadata` in that order, and
re-constructing a `Post` from those four fields restores the original
record. -/
theorem to_dict_roundtrip (p : Post) :
    p.to_dict.map Prod.fst = ["post_id", "user_id", "content", "metadata"]
    ∧ postOfDict p.to_dict = p := by
  obtain ⟨a, b, c, d⟩ := p
  exact ⟨rfl, rfl⟩

/-- C9: the Bilibili end-to-end scenario: `uid="555"`, one video entry
`{bvid:"BV1", title:"T", play:10, like:2, video_review:1}` yields one
post grouped under `"555"` with `play`/`like`/`video_review` mapped to
the `view`/`like`/`danmaku` metadata keys. -/
theorem bilibili_end_to_end :
    (collect_from_bilibili ⟨true⟩ (some biliDemoClient) "555" 50).result
      = [(Value.str "555",
          [{ post_id := Value.str "BV1"
             user_id := Value.str "555"
             content := Value.str "T"
             metadata := [("view", Value.int 10), ("like", Value.int 2),
                          ("danmaku", Value.int 1)] }])] := by
  decide

/-- C6: `collect_from_telegram` excludes exactly the messages whose
sender id is absent, and `collect_from_youtube` excludes exactly the
items whose video id is missing (or empty, hence not well-formed);
every other well-formed item of the same response still contributes its
post to the output grouping. -/
theorem skip_missing_ids (env : PyEnv) (henv : env.telethon_available = true)
    (c : TgClient) (channel : String) (limit : Nat)
    (yc : YtClient) (channel_id : String) (max_results : Nat) :
    (totalPosts (collect_from_telegram env (some c) channel limit).result
        = ((c.iter_messages channel limit).filter
            (fun m => m.sender_id.isSome)).length
      ∧ ∀ m ∈ c.iter_messages channel limit, ∀ sid, m.sender_id = some sid →
          mkTgPost m sid
            ∈ posts (collect_from_telegram env (some c) channel limit).result)
    ∧ (totalPosts (collect_from_youtube env (some yc) channel_id max_results).result
        = (((yc.search_list "snippet" channel_id max_results).getD []).filter
            (fun i => ytTruthy i.id_videoId)).length
      ∧ ∀ i ∈ (yc.search_list "snippet" channel_id max_results).getD [],
          ∀ vid, i.id_videoId = some vid → ¬ vid = "" →
            mkYtPost channel_id vid i.snippet
              ∈ posts (collect_from_youtube env (some yc) channel_id
                  max_results).result) := by
  have hres : (collect_from_telegram env (some c) channel limit).result
      = (c.iter_messages channel limit).foldl tgStep [] := by
    simp [collect_from_telegram, henv]
  have hresy : (collect_from_youtube env (some yc) channel_id max_results).result
      = ((yc.search_list "snippet" channel_id max_results).getD []).foldl
          (ytStep channel_id) [] := rfl
  refine ⟨⟨?_, ?_⟩, ?_, ?_⟩
  · rw [hres, totalPosts_foldl tgStep _ totalPosts_tgStep,
      sum_map_ite_eq_length_filter (fun m : TgMessage => m.sender_id.isSome)
        (c.iter_messages channel limit)]
    simp [totalPosts]
  · intro m hm sid hsid
    rw [hres]
    refine mem_posts_foldl_of_mem tgStep tgStep_mem_mono _ m hm _ ?_ []
    intro g
    rw [tgStep_eq g m sid hsid]
    exact (mem_posts_appendAt _ _ _ _).mpr (Or.inr (by simp))
  · rw [hresy, totalPosts_foldl (ytStep channel_id) _ (totalPosts_ytStep channel_id),
      sum_map_ite_eq_length_filter (fun i : YtItem => ytTruthy i.id_videoId)
        ((yc.search_list "snippet" channel_id max_results).getD [])]
    simp [totalPosts]
  · intro i hi vid hvid hv
    rw [hresy]
    refine mem_posts_foldl_of_mem (ytStep channel_id) (ytStep_mem_mono channel_id)
      _ i hi _ ?_ []
    intro g
    rw [ytStep_eq channel_id g i vid hvid hv]
    exact (mem_posts_appendAt _ _ _ _).mpr (Or.inr (by simp))

/-- Witness for C6 at concrete Telegram and YouTube clients, each with
one well-formed item and one item missing its skip-triggering field. -/
theorem skip_missing_ids_witness :
    (PyEnv.mk true).telethon_available = true
    ∧ totalPosts (collect_from_telegram ⟨true⟩ (some tgDemoClient) "ch" 10).result
        = ((tgDemoClient.iter_messages "ch" 10).filter
            (fun m => m.sender_id.isSome)).length
    ∧ totalPosts (collect_from_youtube ⟨true⟩ (some ytDemoClient) "UC1" 5).result
        = (((ytDemoClient.search_list "snippet" "UC1" 5).getD []).filter
            (fun i => ytTruthy i.id_videoId)).length :=
  ⟨rfl,
   (skip_missing_ids ⟨true⟩ rfl tgDemoClient "ch" 10 ytDemoClient "UC1" 5).1.1,
   (skip_missing_ids ⟨true⟩ rfl tgDemoClient "ch" 10 ytDemoClient "UC1" 5).2.1⟩

/-- C7: `merge_results` concatenates, user id by user id and in
argument order, the post lists of its argument groupings, without
deduplication or reordering, creating entries when absent; with zero
arguments it yields the empty grouping; with one grouping it returns a
grouping equal to it.  (Being a total function, it cannot fail.) -/
theorem merge_results_spec :
    merge_results [] = []
    ∧ (∀ g1 : Grouping, NodupKeys g1 → merge_results [g1] = g1)
    ∧ (∀ (sources : List Grouping) (k : Value),
        postsIn (merge_results sources) k
          = (sources.map (fun s => postsIn s k)).flatten) := by
  refine ⟨rfl, ?_, ?_⟩
  · intro g1 h
    have hone : merge_results [g1]
        = g1.foldl (fun m kv => appendAt m kv.1 kv.2) [] := rfl
    rw [hone, innerFold_disjoint g1 [] h (by intro x _; simp [keys])]
    simp
  · intro sources k
    have h0 : NodupKeys ([] : Grouping) := by simp [NodupKeys, keys]
    have hfold := postsIn_mergeFold k sources [] h0
    simpa [merge_results, postsIn] using hfold

/-- Witness for C7 at a concrete one-grouping argument list. -/
theorem merge_results_spec_witness :
    NodupKeys [(Value.str "u",
      [Post.mk (Value.str "1") (Value.str "u") Value.null []])]
    ∧ merge_results [[(Value.str "u",
        [Post.mk (Value.str "1") (Value.str "u") Value.null []])]]
      = [(Value.str "u",
          [Post.mk (Value.str "1") (Value.str "u") Value.null []])] :=
  ⟨by decide,
   merge_results_spec.2.1
     [(Value.str "u", [Post.mk (Value.str "1") (Value.str "u") Value.null []])]
     (by decide)⟩

/-- C8: for each adapter that groups by a per-item author field (X,
Telegram, TikTok, Xiaohongshu), a response whose items belong to users
in the order A, B, A yields a grouping mapping A's key to the two posts
in original relative order and B's key to the remaining post. -/
theorem grouping_aba_order (env : PyEnv)
    (henv : env.telethon_available = true)
    (t1 t2 t3 : Tweet) (q : String) (mr : Nat)
    (hx3 : pyStr t3.author_id = pyStr t1.author_id)
    (hx2 : pyStr t2.author_id ≠ pyStr t1.author_id)
    (m1 m2 m3 : TgMessage) (ch : String) (tl : Nat) (s1 s2 s3 : Value)
    (hm1 : m1.sender_id = some s1) (hm2 : m2.sender_id = some s2)
    (hm3 : m3.sender_id = some s3)
    (hs3 : pyStr s3 = pyStr s1) (hs2 : pyStr s2 ≠ pyStr s1)
    (v1 v2 v3 : TikVideo) (tq : String) (km : Nat)
    (hv3 : v3.author_id = v1.author_id) (hv2 : v2.author_id ≠ v1.author_id)
    (n1 n2 n3 : XhsNote) (kw : String) (xm : Nat)
    (hn3 : n3.user_id = n1.user_id) (hn2 : n2.user_id ≠ n1.user_id) :
    (collect_from_x env (some ⟨fun _ _ => some [t1, t2, t3]⟩) q mr).result
      = [(Value.str (pyStr t1.author_id), [mkXPost t1, mkXPost t3]),
         (Value.str (pyStr t2.author_id), [mkXPost t2])]
    ∧ (collect_from_telegram env (some ⟨fun _ _ => [m1, m2, m3]⟩) ch tl).result
      = [(Value.str (pyStr s1), [mkTgPost m1 s1, mkTgPost m3 s3]),
         (Value.str (pyStr s2), [mkTgPost m2 s2])]
    ∧ (collect_from_tiktok env (some ⟨fun _ _ => some [v1, v2, v3]⟩) tq km).result
      = [(v1.author_id, [mkTikPost v1, mkTikPost v3]),
         (v2.author_id, [mkTikPost v2])]
    ∧ (collect_from_xiaohongshu env (some ⟨fun _ _ _ => some [n1, n2, n3]⟩)
        kw xm).result
      = [(n1.user_id, [mkXhsPost n1, mkXhsPost n3]),
         (n2.user_id, [mkXhsPost n2])] := by
  refine ⟨?_, ?_, ?_, ?_⟩
  · have hch : (collect_from_x env (some ⟨fun _ _ => some [t1, t2, t3]⟩) q mr).result
        = appendAt (appendAt (appendAt []
            (Value.str (pyStr t1.author_id)) [mkXPost t1])
            (Value.str (pyStr t2.author_id)) [mkXPost t2])
            (Value.str (pyStr t3.author_id)) [mkXPost t3] := rfl
    rw [hch, hx3]
    exact appendAt_aba _ _ _ _ _ (by simpa using hx2)
  · have hch : (collect_from_telegram env (some ⟨fun _ _ => [m1, m2, m3]⟩)
        ch tl).result = tgStep (tgStep (tgStep [] m1) m2) m3 := by
      simp [collect_from_telegram, henv]
    rw [hch, tgStep_eq _ m1 s1 hm1, tgStep_eq _ m2 s2 hm2, tgStep_eq _ m3 s3 hm3,
      hs3]
    exact appendAt_aba _ _ _ _ _ (by simpa using hs2)
  · have hch : (collect_from_tiktok env (some ⟨fun _ _ => some [v1, v2, v3]⟩)
        tq km).result
        = appendAt (appendAt (appendAt [] v1.author_id [mkTikPost v1])
            v2.author_id [mkTikPost v2]) v3.author_id [mkTikPost v3] := rfl
    rw [hch, hv3]
    exact appendAt_aba _ _ _ _ _ hv2
  · have hch : (collect_from_xiaohongshu env (some ⟨fun _ _ _ => some [n1, n2, n3]⟩)
        kw xm).result
        = appendAt (appendAt (appendAt [] n1.user_id [mkXhsPost n1])
            n2.user_id [mkXhsPost n2]) n3.user_id [mkXhsPost n3] := rfl
    rw [hch, hn3]
    exact appendAt_aba _ _ _ _ _ hn2

/-- Witness for C8 at concrete items for users 10, 20, 10. -/
theorem grouping_aba_order_witness :
    pyStr (demoTweet 3 10).author_id = pyStr (demoTweet 1 10).author_id
    ∧ (collect_from_x ⟨true⟩
        (some ⟨fun _ _ => some [demoTweet 1 10, demoTweet 2 20, demoTweet 3 10]⟩)
        "q" 5).result
      = [(Value.str (pyStr (demoTweet 1 10).author_id),
          [mkXPost (demoTweet 1 10), mkXPost (demoTweet 3 10)]),
         (Value.str (pyStr (demoTweet 2 20).author_id),
          [mkXPost (demoTweet 2 20)])] :=
  ⟨by decide,
   (grouping_aba_order ⟨true⟩ rfl
     (demoTweet 1 10) (demoTweet 2 20) (demoTweet 3 10) "q" 5
     (by decide) (by decide)
     (demoMessage 1 5) (demoMessage 2 6) (demoMessage 3 5) "ch" 7
     (Value.int 5) (Value.int 6) (Value.int 5) rfl rfl rfl
     (by decide) (by decide)
     (demoVideo 1 10) (demoVideo 2 20) (demoVideo 3 10) "tq" 5
     (by decide) (by decide)
     (demoNote 1 10) (demoNote 2 20) (demoNote 3 10) "kw" 5
     (by decide) (by decide)).1⟩

/-- C10: for every adapter and every grouping it returns, each post
stored under a key has its `user_id` equal to that key. -/
theorem grouping_key_matches_user_id (env : PyEnv)
    (xc : Option XClient) (q : String) (mr : Nat)
    (tc : Option TgClient) (ch : String) (tl : Nat)
    (yc : Option YtClient) (cid : String) (ym : Nat)
    (kc : Option TikClient) (tq : String) (km : Nat)
    (nc : Option XhsClient) (kw : String) (xm : Nat)
    (bc : Option BiliClient) (uid : String) (bm : Nat) :
    GoodGrouping (collect_from_x env xc q mr).result
    ∧ GoodGrouping (collect_from_telegram env tc ch tl).result
    ∧ GoodGrouping (collect_from_youtube env yc cid ym).result
    ∧ GoodGrouping (collect_from_tiktok env kc tq km).result
    ∧ GoodGrouping (collect_from_xiaohongshu env nc kw xm).result
    ∧ GoodGrouping (collect_from_bilibili env bc uid bm).result := by
  refine ⟨?_, ?_, ?_, ?_, ?_, ?_⟩
  · cases xc with
    | none => exact goodGrouping_nil
    | some c => exact goodGrouping_foldl xStep xStep_good _ [] goodGrouping_nil
  · obtain ⟨b⟩ := env
    cases b with
    | false => exact goodGrouping_nil
    | true =>
        cases tc with
        | none => exact goodGrouping_nil
        | some c =>
            exact goodGrouping_foldl tgStep tgStep_good _ [] goodGrouping_nil
  · cases yc with
    | none => exact goodGrouping_nil
    | some c =>
        exact goodGrouping_foldl (ytStep cid) (ytStep_good cid) _ []
          goodGrouping_nil
  · cases kc with
    | none => exact goodGrouping_nil
    | some c => exact goodGrouping_foldl tikStep tikStep_good _ [] goodGrouping_nil
  · cases nc with
    | none => exact goodGrouping_nil
    | some c => exact goodGrouping_foldl xhsStep xhsStep_good _ [] goodGrouping_nil
  · cases bc with
    | none => exact goodGrouping_nil
    | some c =>
        exact goodGrouping_foldl (biliStep uid) (biliStep_good uid) _ []
          goodGrouping_nil

end Scrapers
